import Mathlib

/-!
Shallow embedding of the `SimpleCache` TypeScript class (the cache engine:
entry store, lazy TTL expiry, eviction policies, statistics collector).

Modelling conventions:
* The JS `Map` (insertion-ordered) is an association list `List (K × CacheEntry V)`
  with distinct keys; `Map.set` replaces in place or appends, `Map.delete`
  removes the (unique) occurrence, iteration order is list order.
* `Date.now()` is an explicit `now : Int` argument to each operation.
* `Math.random()`-driven victim choice is an oracle `List Nat` of draws; each
  draw is reduced modulo the store size, which ranges over exactly the indices
  `Math.floor(Math.random() * keys.length)` can produce.
* A thrown exception is a `Bool` flag (`true` = threw) paired with the state as
  mutated up to the throw point: in JS, mutations made before a `throw` persist.
* Numbers used for statistics rates are modelled as rationals; `toFixed(2)`
  is modelled as exact half-up rounding to 2 decimal places.
-/

set_option autoImplicit false
set_option linter.unusedSectionVars false
set_option linter.unusedVariables false

namespace SimpleCache

/-- The four eviction policies of the source: `"lru" | "fifo" | "random" | "none"`. -/
inductive EvictionPolicy where
  | lru
  | fifo
  | random
  | none
  deriving DecidableEq, Repr

/-- `CacheEntry<V> = { value: V; expiry?: number }`; `expiry` is an absolute
timestamp in ms, absent (`undefined`) when the entry never expires. -/
structure CacheEntry (V : Type) where
  value : V
  expiry : Option Int
  deriving DecidableEq, Repr

/-- The raw statistics counters of the source (`this.stats`). -/
structure Stats where
  hits : Nat
  misses : Nat
  sets : Nat
  deletes : Nat
  evictions : Nat
  expires : Nat
  deriving DecidableEq, Repr

/-- All-zero counters, as initialised by the constructor and `resetStats()`. -/
def Stats.zero : Stats := ⟨0, 0, 0, 0, 0, 0⟩

/-- Names of the raw counters (`keyof` the stats record). -/
inductive StatKey where
  | hits
  | misses
  | sets
  | deletes
  | evictions
  | expires
  deriving DecidableEq, Repr

/-- `this.stats[stat]++` for a given counter name. -/
def bumpStat : StatKey → Stats → Stats
  | .hits, s => { s with hits := s.hits + 1 }
  | .misses, s => { s with misses := s.misses + 1 }
  | .sets, s => { s with sets := s.sets + 1 }
  | .deletes, s => { s with deletes := s.deletes + 1 }
  | .evictions, s => { s with evictions := s.evictions + 1 }
  | .expires, s => { s with expires := s.expires + 1 }

/-- The constructor-time configuration: `capacity` (`Option.none` = `Infinity`),
`defaultTtl` (ms), `evictionPolicy`. These fields are never reassigned in the
source, so they are a fixed parameter rather than mutable state. -/
structure Config where
  capacity : Option Nat
  defaultTtl : Option Int
  evictionPolicy : EvictionPolicy
  deriving DecidableEq, Repr

/-- The mutable state of a `SimpleCache` instance: the store, the raw
counters, and the stats-enabled flag. -/
structure CacheState (K V : Type) where
  store : List (K × CacheEntry V)
  stats : Stats
  statsEnabled : Bool
  deriving DecidableEq, Repr

/-- Fresh instance: empty store, zero counters, flag from `enableStats`. -/
def initial (K V : Type) (enableStats : Bool) : CacheState K V :=
  ⟨[], Stats.zero, enableStats⟩

variable {K V : Type} [DecidableEq K]

/-- `Map.get`: the entry of the first (unique) pair whose key matches. -/
def mapGet (k : K) : List (K × CacheEntry V) → Option (CacheEntry V)
  | [] => Option.none
  | p :: rest => if p.1 = k then some p.2 else mapGet k rest

/-- `Map.has`. -/
def mapHas (k : K) (st : List (K × CacheEntry V)) : Bool :=
  (mapGet k st).isSome

/-- `Map.delete`: removes the first (unique) pair whose key matches. -/
def mapDelete (k : K) : List (K × CacheEntry V) → List (K × CacheEntry V)
  | [] => []
  | p :: rest => if p.1 = k then rest else p :: mapDelete k rest

/-- `Map.set`: replaces in place when the key is present, else appends at the
end of iteration order. -/
def jsMapSet (k : K) (e : CacheEntry V) : List (K × CacheEntry V) → List (K × CacheEntry V)
  | [] => [(k, e)]
  | p :: rest => if p.1 = k then (k, e) :: rest else p :: jsMapSet k e rest

/-- In-place mutation of a stored entry (`entry.expiry = ...` through the
reference obtained from `Map.get`): the pair keeps its position. -/
def mapModify (k : K) (f : CacheEntry V → CacheEntry V) :
    List (K × CacheEntry V) → List (K × CacheEntry V)
  | [] => []
  | p :: rest => if p.1 = k then (p.1, f p.2) :: rest else p :: mapModify k f rest

/-- `isExpired`: `entry.expiry !== undefined && Date.now() > entry.expiry`. -/
def isExpired (now : Int) (e : CacheEntry V) : Bool :=
  match e.expiry with
  | Option.none => false
  | some t => decide (t < now)

/-- `recordStat`: increments a counter only when stats are enabled. -/
def recordStat (key : StatKey) (s : CacheState K V) : CacheState K V :=
  if s.statsEnabled then { s with stats := bumpStat key s.stats } else s

/-- `this.store.size > this.capacity` (`size > Infinity` is always false). -/
def exceedsCap (n : Nat) : Option Nat → Bool
  | Option.none => false
  | some c => decide (c < n)

/-- The `while` loop of `evictIfNeeded`, with explicit fuel. Each iteration
with size above capacity removes one victim (policies `lru`/`fifo`: the front
of iteration order; `random`: the key at the drawn index) and counts an
eviction; policy `none` throws (`true` flag) with the store untouched. The
inner `Option.none` branches (empty store while over capacity) are unreachable,
since over-capacity forces a nonempty store. -/
def evictLoop (cfg : Config) : Nat → List Nat → CacheState K V → Bool × CacheState K V
  | 0, _, s => (false, s)
  | fuel + 1, rands, s =>
    if exceedsCap s.store.length cfg.capacity then
      match cfg.evictionPolicy with
      | .lru | .fifo =>
        match s.store.head? with
        | some p =>
          evictLoop cfg fuel rands
            (recordStat .evictions { s with store := mapDelete p.1 s.store })
        | Option.none => (false, s)
      | .random =>
        match s.store.get? (rands.headD 0 % s.store.length) with
        | some p =>
          evictLoop cfg fuel rands.tail
            (recordStat .evictions { s with store := mapDelete p.1 s.store })
        | Option.none => (false, s)
      | .none => (true, s)
    else (false, s)

/-- `evictIfNeeded`: the loop runs at most `size - capacity ≤ size` times, so
fuel `size` is exact. -/
def evictIfNeeded (cfg : Config) (rands : List Nat) (s : CacheState K V) :
    Bool × CacheState K V :=
  evictLoop cfg s.store.length rands s

/-- The `const expiry = ...` computation of `set`: an explicit `ttl` argument
takes precedence over the configured default TTL; absence of both means no
expiry. -/
def resolveExpiry (cfg : Config) (ttlArg : Option Int) (now : Int) : Option Int :=
  match ttlArg with
  | some t => some (now + t)
  | Option.none =>
    match cfg.defaultTtl with
    | some d => some (now + d)
    | Option.none => Option.none

/-- `set(key, value, ttl?)`: resolve the effective expiry, delete-then-set to
refresh recency, count the set, then enforce capacity. The `Bool` is the
thrown `CapacityExceeded` flag; the state is as mutated even when the flag is
`true`. -/
def setOp (cfg : Config) (k : K) (v : V) (ttlArg : Option Int) (now : Int)
    (rands : List Nat) (s : CacheState K V) : Bool × CacheState K V :=
  let store1 := if mapHas k s.store then mapDelete k s.store else s.store
  let store2 := jsMapSet k ⟨v, resolveExpiry cfg ttlArg now⟩ store1
  evictIfNeeded cfg rands (recordStat .sets { s with store := store2 })

/-- `get(key)`: miss when absent; expired entries (the inline condition
`entry.expiry !== undefined && Date.now() > entry.expiry` is exactly
`isExpired`) are deleted and counted as expire + miss; otherwise under LRU the
entry is moved to the end (delete-then-set) and a hit is counted. -/
def getOp (cfg : Config) (k : K) (now : Int) (s : CacheState K V) :
    Option V × CacheState K V :=
  match mapGet k s.store with
  | Option.none => (Option.none, recordStat .misses s)
  | some entry =>
    if isExpired now entry then
      (Option.none, recordStat .misses (recordStat .expires { s with store := mapDelete k s.store }))
    else
      (some entry.value, recordStat .hits
        (if cfg.evictionPolicy = .lru then
          { s with store := jsMapSet k entry (mapDelete k s.store) }
        else s))

/-- `has(key)`: lazy-expiry check like `get`, but never touches recency and
never counts hits/misses. -/
def hasOp (k : K) (now : Int) (s : CacheState K V) : Bool × CacheState K V :=
  match mapGet k s.store with
  | Option.none => (false, s)
  | some entry =>
    if isExpired now entry then
      (false, recordStat .expires { s with store := mapDelete k s.store })
    else (true, s)

/-- `delete(key)`: `Map.delete` (removes the entry when present, returning
whether it was present); counts a delete only on removal. -/
def deleteOp (k : K) (s : CacheState K V) : Bool × CacheState K V :=
  if mapHas k s.store then
    (true, recordStat .deletes { s with store := mapDelete k s.store })
  else
    (false, { s with store := mapDelete k s.store })

/-- `clear()`: empties the store; resets counters only when stats enabled. -/
def clearOp (s : CacheState K V) : CacheState K V :=
  if s.statsEnabled then { s with store := ([] : List (K × CacheEntry V)), stats := Stats.zero }
  else { s with store := ([] : List (K × CacheEntry V)) }

/-- `size()`. -/
def sizeOp (s : CacheState K V) : Nat :=
  s.store.length

/-- `ttl(key)`: `-2` when absent; `-1` on the falsy check `!entry.expiry`,
which is satisfied both by an absent expiry (`undefined`) and by an expiry
timestamp equal to `0`; else `Math.max(0, expiry - now)`. -/
def ttlOp (k : K) (now : Int) (s : CacheState K V) : Int :=
  match mapGet k s.store with
  | Option.none => -2
  | some entry =>
    match entry.expiry with
    | Option.none => -1
    | some t => if t = 0 then -1 else max 0 (t - now)

/-- `expire(key, ttl)`: false when absent; else sets `expiry = now + ttl` in
place and returns true. No expiry check is performed. -/
def expireOp (k : K) (t : Int) (now : Int) (s : CacheState K V) :
    Bool × CacheState K V :=
  match mapGet k s.store with
  | Option.none => (false, s)
  | some _ =>
    (true, { s with store := mapModify k (fun e => { e with expiry := some (now + t) }) s.store })

/-- `persist(key)`: false when absent; else clears the expiry in place. -/
def persistOp (k : K) (s : CacheState K V) : Bool × CacheState K V :=
  match mapGet k s.store with
  | Option.none => (false, s)
  | some _ =>
    (true, { s with store := mapModify k (fun e => { e with expiry := Option.none }) s.store })

/-- `keys()`: the stored keys in iteration order. -/
def keysOp (s : CacheState K V) : List K :=
  s.store.map Prod.fst

/-- The snapshot returned by `getStats()`. -/
structure StatsView where
  hits : Nat
  misses : Nat
  sets : Nat
  deletes : Nat
  evictions : Nat
  expires : Nat
  hitRate : ℚ
  missRate : ℚ
  totalRequests : Nat
  deriving DecidableEq, Repr

/-- `Number(x.toFixed(2))` modelled as exact half-up rounding of the rational
value to 2 decimal places (ties round up, as for the nonnegative rates here). -/
def round2 (q : ℚ) : ℚ :=
  ((⌊q * 100 + 1 / 2⌋ : ℤ) : ℚ) / 100

/-- `getStats()`: raw counters plus derived `totalRequests`, `hitRate`,
`missRate`; the rates are `0` when `totalRequests` is `0` (falsy ternary). -/
def getStats (s : CacheState K V) : StatsView :=
  let total := s.stats.hits + s.stats.misses
  { hits := s.stats.hits
    misses := s.stats.misses
    sets := s.stats.sets
    deletes := s.stats.deletes
    evictions := s.stats.evictions
    expires := s.stats.expires
    hitRate := if total = 0 then 0 else round2 ((s.stats.hits : ℚ) / (total : ℚ) * 100)
    missRate := if total = 0 then 0 else round2 ((s.stats.misses : ℚ) / (total : ℚ) * 100)
    totalRequests := total }

/-- The public mutating operations, as a syntax for operation sequences. Query
arguments (`now`, the value, the ttl, the random draws for eviction) are
carried on the operation. -/
inductive Op (K V : Type) where
  | set (k : K) (v : V) (ttl : Option Int) (now : Int) (rands : List Nat)
  | get (k : K) (now : Int)
  | has (k : K) (now : Int)
  | delete (k : K)
  | clear
  | expire (k : K) (t : Int) (now : Int)
  | persist (k : K)
  | resetStats
  | enableStats
  | disableStats

/-- One public operation applied to the state (results discarded; for `set`
the state is kept also when `CapacityExceeded` was thrown, as the mutations
before the throw persist). -/
def step (cfg : Config) (s : CacheState K V) : Op K V → CacheState K V
  | .set k v t now rands => (setOp cfg k v t now rands s).2
  | .get k now => (getOp cfg k now s).2
  | .has k now => (hasOp k now s).2
  | .delete k => (deleteOp k s).2
  | .clear => clearOp s
  | .expire k t now => (expireOp k t now s).2
  | .persist k => (persistOp k s).2
  | .resetStats => { s with stats := Stats.zero }
  | .enableStats => { s with statsEnabled := true }
  | .disableStats => { s with statsEnabled := false }

/-- Running a sequence of public operations from a fresh instance. -/
def run (cfg : Config) (enableStats : Bool) (ops : List (Op K V)) : CacheState K V :=
  ops.foldl (step cfg) (initial K V enableStats)

/-! ### Concrete configurations and scenarios used in the examples -/

/-- `{ capacity: 2, evictionPolicy: "lru" }`. -/
def cfgLru2 : Config := ⟨some 2, Option.none, EvictionPolicy.lru⟩

/-- `{ capacity: 2, evictionPolicy: "fifo" }`. -/
def cfgFifo2 : Config := ⟨some 2, Option.none, EvictionPolicy.fifo⟩

/-- `{ capacity: 1, evictionPolicy: "none" }`. -/
def cfgNone1 : Config := ⟨some 1, Option.none, EvictionPolicy.none⟩

/-- Default configuration: unbounded capacity, no default TTL, LRU. -/
def cfgUnbounded : Config := ⟨Option.none, Option.none, EvictionPolicy.lru⟩

/-- LRU scenario: capacity 2, `set(a,1); set(b,2); get(a); set(c,3)`. -/
def lruScenario : CacheState String Nat :=
  run cfgLru2 false
    [Op.set "a" 1 Option.none 0 [], Op.set "b" 2 Option.none 0 [],
      Op.get "a" 0, Op.set "c" 3 Option.none 0 []]

/-- FIFO scenario with an intervening `get(a)`. -/
def fifoScenarioGet : CacheState String Nat :=
  run cfgFifo2 false
    [Op.set "a" 1 Option.none 0 [], Op.set "b" 2 Option.none 0 [],
      Op.get "a" 0, Op.set "c" 3 Option.none 0 []]

/-- FIFO scenario without the intervening `get(a)`. -/
def fifoScenarioNoGet : CacheState String Nat :=
  run cfgFifo2 false
    [Op.set "a" 1 Option.none 0 [], Op.set "b" 2 Option.none 0 [],
      Op.set "c" 3 Option.none 0 []]

/-- None-policy scenario: capacity 1, after `set(a,1)`. -/
def noneScenario : CacheState String Nat :=
  run cfgNone1 false [Op.set "a" 1 Option.none 0 []]

/-- A store holding one entry `k ↦ 1` whose expiry timestamp `100` has passed
by time `200` (set with ttl 100 at time 0, not accessed since). -/
def expiredScenario : CacheState String Nat :=
  run cfgUnbounded false [Op.set "k" 1 (some 100) 0 []]

/-- A store where `expire(k, -1000)` at time `1000` gave entry `k` the expiry
timestamp `0` (a falsy number). -/
def falsyExpiryScenario : CacheState String Nat :=
  run cfgUnbounded false
    [Op.set "k" 1 Option.none 1000 [], Op.expire "k" (-1000) 1000]

/-- Stats scenario: stats enabled, one hit and one miss. -/
def statsScenario : CacheState String Nat :=
  run cfgUnbounded true
    [Op.set "k" 1 Option.none 0 [], Op.get "k" 0, Op.get "z" 0]

/-- Like `expiredScenario` but with stats enabled. -/
def expiredStatsScenario : CacheState String Nat :=
  run cfgUnbounded true [Op.set "k" 1 (some 100) 0 []]

/-- A state with statistics disabled but nonzero previously accumulated
counters (as left behind by `disableStats()` after recorded activity). -/
def disabledStatsState : CacheState String Nat :=
  ⟨[("a", ⟨1, Option.none⟩)], ⟨5, 4, 3, 2, 1, 0⟩, false⟩

/-! ### Basic lemmas about the store and the statistics recorder -/

theorem recordStat_store (key : StatKey) (s : CacheState K V) :
    (recordStat key s).store = s.store := by
  unfold recordStat
  split <;> rfl

theorem recordStat_statsEnabled (key : StatKey) (s : CacheState K V) :
    (recordStat key s).statsEnabled = s.statsEnabled := by
  unfold recordStat
  split <;> rfl

theorem recordStat_of_disabled (key : StatKey) (s : CacheState K V)
    (h : s.statsEnabled = false) : recordStat key s = s := by
  unfold recordStat
  simp [h]

theorem mapDelete_length_le (k : K) (st : List (K × CacheEntry V)) :
    (mapDelete k st).length ≤ st.length := by
  induction st with
  | nil => simp [mapDelete]
  | cons p rest ih =>
    by_cases h : p.1 = k
    · simp [mapDelete, h]
    · simp only [mapDelete, if_neg h, List.length_cons]
      exact Nat.succ_le_succ ih

theorem mapHas_of_mem {st : List (K × CacheEntry V)} {q : K × CacheEntry V}
    (hq : q ∈ st) : mapHas q.1 st = true := by
  induction st with
  | nil => cases hq
  | cons p rest ih =>
    by_cases h : p.1 = q.1
    · simp [mapHas, mapGet, h]
    · rcases List.mem_cons.mp hq with rfl | hmem
      · exact absurd rfl h
      · simpa [mapHas, mapGet, h] using ih hmem

theorem mapDelete_length_of_has {k : K} {st : List (K × CacheEntry V)}
    (h : mapHas k st = true) : (mapDelete k st).length + 1 = st.length := by
  induction st with
  | nil => simp [mapHas, mapGet] at h
  | cons p rest ih =>
    by_cases hk : p.1 = k
    · simp [mapDelete, hk]
    · have h' : mapHas k rest = true := by
        simpa [mapHas, mapGet, hk] using h
      simp only [mapDelete, if_neg hk, List.length_cons]
      exact congrArg Nat.succ (ih h')


theorem jsMapSet_length_le (k : K) (e : CacheEntry V) (st : List (K × CacheEntry V)) :
    (jsMapSet k e st).length ≤ st.length + 1 := by
  induction st with
  | nil => simp [jsMapSet]
  | cons p rest ih =>
    by_cases h : p.1 = k
    · simp [jsMapSet, h]
    · simp only [jsMapSet, if_neg h, List.length_cons]
      exact Nat.succ_le_succ ih

theorem jsMapSet_length_of_not_has {k : K} (e : CacheEntry V)
    {st : List (K × CacheEntry V)} (h : mapHas k st = false) :
    (jsMapSet k e st).length = st.length + 1 := by
  induction st with
  | nil => rfl
  | cons p rest ih =>
    by_cases hk : p.1 = k
    · simp [mapHas, mapGet, hk] at h
    · have h' : mapHas k rest = false := by
        simpa [mapHas, mapGet, hk] using h
      simp only [jsMapSet, if_neg hk, List.length_cons]
      exact congrArg Nat.succ (ih h')

theorem mapModify_length (k : K) (f : CacheEntry V → CacheEntry V)
    (st : List (K × CacheEntry V)) : (mapModify k f st).length = st.length := by
  induction st with
  | nil => rfl
  | cons p rest ih =>
    by_cases h : p.1 = k
    · simp [mapModify, h]
    · simp only [mapModify, if_neg h, List.length_cons]
      exact congrArg Nat.succ ih

theorem mapGet_none_of_not_mem {k : K} {st : List (K × CacheEntry V)}
    (h : k ∉ st.map Prod.fst) : mapGet k st = Option.none := by
  induction st with
  | nil => rfl
  | cons p rest ih =>
    simp only [List.map_cons, List.mem_cons] at h
    push_neg at h
    have hk : p.1 ≠ k := fun hc => h.1 hc.symm
    simpa [mapGet, hk] using ih h.2

theorem mapHas_mapDelete_self {k : K} {st : List (K × CacheEntry V)}
    (h : (st.map Prod.fst).Nodup) : mapHas k (mapDelete k st) = false := by
  induction st with
  | nil => rfl
  | cons p rest ih =>
    simp only [List.map_cons, List.nodup_cons] at h
    by_cases hk : p.1 = k
    · have : k ∉ rest.map Prod.fst := hk ▸ h.1
      simp [mapDelete, hk, mapHas, mapGet_none_of_not_mem this]
    · simpa [mapDelete, hk, mapHas, mapGet] using ih h.2

/-! ### Lemmas about the eviction loop -/

theorem evictLoop_of_not_exceeds (cfg : Config) (fuel : Nat) (rands : List Nat)
    (s : CacheState K V) (h : exceedsCap s.store.length cfg.capacity = false) :
    evictLoop cfg fuel rands s = (false, s) := by
  cases fuel with
  | zero => rfl
  | succ n => simp [evictLoop, h]

theorem evictLoop_length_le {cfg : Config} {c : Nat} (hc : cfg.capacity = some c)
    (hpol : cfg.evictionPolicy ≠ EvictionPolicy.none) (fuel : Nat) :
    ∀ (rands : List Nat) (s : CacheState K V), s.store.length ≤ c + fuel →
      ((evictLoop cfg fuel rands s).2).store.length ≤ c := by
  induction fuel with
  | zero =>
    intro rands s hlen
    simpa using hlen
  | succ n ih =>
    intro rands s hlen
    cases hex : exceedsCap s.store.length cfg.capacity with
    | false =>
      rw [evictLoop_of_not_exceeds cfg (n + 1) rands s hex]
      show s.store.length ≤ c
      rw [hc] at hex
      simpa [exceedsCap] using hex
    | true =>
      have hlt : c < s.store.length := by
        rw [hc] at hex
        simpa [exceedsCap] using hex
      rw [evictLoop, if_pos hex]
      cases hpcase : cfg.evictionPolicy with
      | none => exact absurd hpcase hpol
      | lru =>
        cases hst : s.store with
        | nil => exact absurd hlt (by simp [hst])
        | cons p rest =>
          have hhas : mapHas p.1 (p :: rest) = true :=
            mapHas_of_mem (List.mem_cons_self p rest)
          have hlen' : (recordStat StatKey.evictions
              { s with store := mapDelete p.1 (p :: rest) }).store.length ≤ c + n := by
            rw [recordStat_store]
            show (mapDelete p.1 (p :: rest)).length ≤ c + n
            have hd := mapDelete_length_of_has hhas
            rw [hst] at hlen
            simp only [List.length_cons] at hd hlen
            omega
          exact ih _ _ hlen'
      | fifo =>
        cases hst : s.store with
        | nil => exact absurd hlt (by simp [hst])
        | cons p rest =>
          have hhas : mapHas p.1 (p :: rest) = true :=
            mapHas_of_mem (List.mem_cons_self p rest)
          have hlen' : (recordStat StatKey.evictions
              { s with store := mapDelete p.1 (p :: rest) }).store.length ≤ c + n := by
            rw [recordStat_store]
            show (mapDelete p.1 (p :: rest)).length ≤ c + n
            have hd := mapDelete_length_of_has hhas
            rw [hst] at hlen
            simp only [List.length_cons] at hd hlen
            omega
          exact ih _ _ hlen'
      | random =>
        cases hget : s.store.get? (rands.headD 0 % s.store.length) with
        | none =>
          have hpos : 0 < s.store.length := Nat.lt_of_le_of_lt (Nat.zero_le c) hlt
          have hidx : rands.headD 0 % s.store.length < s.store.length :=
            Nat.mod_lt _ hpos
          have := List.get?_eq_none.mp hget
          omega
        | some q =>
          have hq : q ∈ s.store := List.get?_mem hget
          have hhas : mapHas q.1 s.store = true := mapHas_of_mem hq
          have hlen' : (recordStat StatKey.evictions
              { s with store := mapDelete q.1 s.store }).store.length ≤ c + n := by
            rw [recordStat_store]
            show (mapDelete q.1 s.store).length ≤ c + n
            have hd := mapDelete_length_of_has hhas
            omega
          exact ih _ _ hlen'

theorem setOp_length_le {cfg : Config} {c : Nat} (hc : cfg.capacity = some c)
    (hpol : cfg.evictionPolicy ≠ EvictionPolicy.none) (k : K) (v : V)
    (ttlArg : Option Int) (now : Int) (rands : List Nat) (s : CacheState K V) :
    ((setOp cfg k v ttlArg now rands s).2).store.length ≤ c := by
  unfold setOp evictIfNeeded
  exact evictLoop_length_le hc hpol _ _ _ (Nat.le_add_left _ _)

theorem getOp_length_le (cfg : Config) (k : K) (now : Int) (s : CacheState K V) :
    ((getOp cfg k now s).2).store.length ≤ s.store.length := by
  unfold getOp
  split
  · simp only [recordStat_store]
    exact Nat.le_refl _
  next entry hget =>
    have hhas : mapHas k s.store = true := by simp [mapHas, hget]
    have hdel := mapDelete_length_of_has hhas
    split
    · simp only [recordStat_store]
      show (mapDelete k s.store).length ≤ s.store.length
      omega
    · simp only [recordStat_store]
      split
      · show (jsMapSet k entry (mapDelete k s.store)).length ≤ s.store.length
        have := jsMapSet_length_le k entry (mapDelete k s.store)
        omega
      · exact Nat.le_refl _

theorem hasOp_length_le (k : K) (now : Int) (s : CacheState K V) :
    ((hasOp k now s).2).store.length ≤ s.store.length := by
  unfold hasOp
  split
  · exact Nat.le_refl _
  · split
    · simp only [recordStat_store]
      show (mapDelete k s.store).length ≤ s.store.length
      exact mapDelete_length_le k s.store
    · exact Nat.le_refl _

theorem deleteOp_length_le (k : K) (s : CacheState K V) :
    ((deleteOp k s).2).store.length ≤ s.store.length := by
  unfold deleteOp
  split
  · simp only [recordStat_store]
    show (mapDelete k s.store).length ≤ s.store.length
    exact mapDelete_length_le k s.store
  · show (mapDelete k s.store).length ≤ s.store.length
    exact mapDelete_length_le k s.store

theorem expireOp_length (k : K) (t : Int) (now : Int) (s : CacheState K V) :
    ((expireOp k t now s).2).store.length = s.store.length := by
  unfold expireOp
  cases hget : mapGet k s.store with
  | none => rfl
  | some entry => exact mapModify_length k _ s.store

theorem persistOp_length (k : K) (s : CacheState K V) :
    ((persistOp k s).2).store.length = s.store.length := by
  unfold persistOp
  cases hget : mapGet k s.store with
  | none => rfl
  | some entry => exact mapModify_length k _ s.store

theorem step_length_le {cfg : Config} {c : Nat} (hc : cfg.capacity = some c)
    (hpol : cfg.evictionPolicy ≠ EvictionPolicy.none) (s : CacheState K V)
    (hs : s.store.length ≤ c) (op : Op K V) :
    (step cfg s op).store.length ≤ c := by
  cases op with
  | set k v t now rands => exact setOp_length_le hc hpol k v t now rands s
  | get k now => exact Nat.le_trans (getOp_length_le cfg k now s) hs
  | has k now => exact Nat.le_trans (hasOp_length_le k now s) hs
  | delete k => exact Nat.le_trans (deleteOp_length_le k s) hs
  | clear =>
    show (clearOp s).store.length ≤ c
    unfold clearOp
    split <;> exact Nat.zero_le c
  | expire k t now =>
    show ((expireOp k t now s).2).store.length ≤ c
    rw [expireOp_length]
    exact hs
  | persist k =>
    show ((persistOp k s).2).store.length ≤ c
    rw [persistOp_length]
    exact hs
  | resetStats => exact hs
  | enableStats => exact hs
  | disableStats => exact hs

theorem run_length_le {cfg : Config} {c : Nat} (hc : cfg.capacity = some c)
    (hpol : cfg.evictionPolicy ≠ EvictionPolicy.none) (enableStats : Bool)
    (ops : List (Op K V)) : (run cfg enableStats ops).store.length ≤ c := by
  have main : ∀ (l : List (Op K V)) (s : CacheState K V), s.store.length ≤ c →
      (l.foldl (step cfg) s).store.length ≤ c := by
    intro l
    induction l with
    | nil =>
      intro s hs
      exact hs
    | cons op rest ih =>
      intro s hs
      exact ih _ (step_length_le hc hpol s hs op)
  exact main ops (initial K V enableStats) (Nat.zero_le c)

/-! ### Claim theorems -/

/-- C2: for every eviction policy except None and every finite configured
capacity, after any sequence of public operations returns (in particular
after every successful `set`), the store size is at most the configured
capacity. -/
theorem spec_C2_capacity_invariant (cfg : Config) (c : Nat) (enableStats : Bool)
    (ops : List (Op K V)) (hpol : cfg.evictionPolicy ≠ EvictionPolicy.none)
    (hc : cfg.capacity = some c) : sizeOp (run cfg enableStats ops) ≤ c :=
  run_length_le hc hpol enableStats ops

theorem spec_C2_capacity_invariant_witness :
    cfgLru2.evictionPolicy ≠ EvictionPolicy.none ∧ cfgLru2.capacity = some 2 ∧
    sizeOp (run cfgLru2 false
      [Op.set "a" (1 : Nat) Option.none 0 [], Op.set "b" 2 Option.none 0 [],
        Op.set "c" 3 Option.none 0 []]) ≤ 2 :=
  ⟨by decide, rfl, spec_C2_capacity_invariant cfgLru2 2 false _ (by decide) rfl⟩

/-- C4: under LRU policy with capacity 2, starting from an empty cache,
`set(a,1); set(b,2); get(a); set(c,3)` yields `has(a)=true`, `has(b)=false`,
`has(c)=true`: the `get` refreshed a's recency, so b was the eviction
victim. -/
theorem spec_C4_lru_scenario :
    (hasOp "a" 0 lruScenario).1 = true ∧
    (hasOp "b" 0 lruScenario).1 = false ∧
    (hasOp "c" 0 lruScenario).1 = true := by
  decide

/-- C5: under FIFO policy with capacity 2, starting from an empty cache,
`set(a,1); set(b,2); set(c,3)` — with or without an intervening `get(a)` —
yields `has(a)=false`, `has(b)=true`, `has(c)=true`: `get` does not reorder
entries under FIFO, so the oldest insertion a is the eviction victim. -/
theorem spec_C5_fifo_scenario :
    ((hasOp "a" 0 fifoScenarioGet).1 = false ∧
      (hasOp "b" 0 fifoScenarioGet).1 = true ∧
      (hasOp "c" 0 fifoScenarioGet).1 = true) ∧
    ((hasOp "a" 0 fifoScenarioNoGet).1 = false ∧
      (hasOp "b" 0 fifoScenarioNoGet).1 = true ∧
      (hasOp "c" 0 fifoScenarioNoGet).1 = true) := by
  decide

theorem recordStat_stats (key : StatKey) (s : CacheState K V) :
    (recordStat key s).stats =
      (if s.statsEnabled then bumpStat key s.stats else s.stats) := by
  unfold recordStat
  split <;> simp_all

theorem recordStat_recordStat_stats (k1 k2 : StatKey) (s : CacheState K V) :
    (recordStat k1 (recordStat k2 s)).stats =
      (if s.statsEnabled then bumpStat k1 (bumpStat k2 s.stats) else s.stats) := by
  unfold recordStat
  cases hb : s.statsEnabled <;> simp [hb]

theorem evictIfNeeded_of_not_exceeds (cfg : Config) (rands : List Nat)
    (s : CacheState K V) (h : exceedsCap s.store.length cfg.capacity = false) :
    evictIfNeeded cfg rands s = (false, s) := by
  unfold evictIfNeeded
  exact evictLoop_of_not_exceeds cfg s.store.length rands s h

theorem setOp_def (cfg : Config) (k : K) (v : V) (ttlArg : Option Int)
    (now : Int) (rands : List Nat) (s : CacheState K V) :
    setOp cfg k v ttlArg now rands s =
      evictIfNeeded cfg rands (recordStat StatKey.sets
        { s with store := (jsMapSet k ⟨v, resolveExpiry cfg ttlArg now⟩
            (if mapHas k s.store then mapDelete k s.store else s.store)) }) :=
  rfl

/-- C8: with eviction policy None and the store exactly at capacity, a `set`
whose key is already present in the store succeeds without raising
CapacityExceeded, and `size()` is unchanged by that call. (The store is a JS
`Map`, so its keys are distinct.) -/
theorem spec_C8_overwrite_at_capacity (cfg : Config) (c : Nat)
    (s : CacheState K V) (k : K) (v : V) (ttlArg : Option Int) (now : Int)
    (rands : List Nat) (hpol : cfg.evictionPolicy = EvictionPolicy.none)
    (hc : cfg.capacity = some c) (hnodup : (s.store.map Prod.fst).Nodup)
    (hhas : mapHas k s.store = true) (hsize : sizeOp s = c) :
    (setOp cfg k v ttlArg now rands s).1 = false ∧
    sizeOp (setOp cfg k v ttlArg now rands s).2 = c := by
  have habs : mapHas k (mapDelete k s.store) = false := mapHas_mapDelete_self hnodup
  have hlen : (recordStat StatKey.sets
      { s with store := (jsMapSet k (⟨v, resolveExpiry cfg ttlArg now⟩ : CacheEntry V)
          (if mapHas k s.store then mapDelete k s.store else s.store)) }).store.length = c := by
    rw [recordStat_store]
    show (jsMapSet k (⟨v, resolveExpiry cfg ttlArg now⟩ : CacheEntry V)
        (if mapHas k s.store then mapDelete k s.store else s.store)).length = c
    rw [if_pos hhas, jsMapSet_length_of_not_has _ habs]
    have hdel := mapDelete_length_of_has hhas
    unfold sizeOp at hsize
    omega
  rw [setOp_def,
    evictIfNeeded_of_not_exceeds _ _ _ (by rw [hlen, hc]; simp [exceedsCap])]
  exact ⟨rfl, hlen⟩

theorem spec_C8_overwrite_at_capacity_witness :
    cfgNone1.evictionPolicy = EvictionPolicy.none ∧
    mapHas "a" noneScenario.store = true ∧
    sizeOp noneScenario = 1 ∧
    (setOp cfgNone1 "a" (5 : Nat) Option.none 0 [] noneScenario).1 = false ∧
    sizeOp (setOp cfgNone1 "a" (5 : Nat) Option.none 0 [] noneScenario).2 = 1 := by
  refine ⟨rfl, by decide, by decide, ?_, ?_⟩
  · exact (spec_C8_overwrite_at_capacity cfgNone1 1 noneScenario "a" 5 Option.none 0 []
      rfl rfl (by decide) (by decide) (by decide)).1
  · exact (spec_C8_overwrite_at_capacity cfgNone1 1 noneScenario "a" 5 Option.none 0 []
      rfl rfl (by decide) (by decide) (by decide)).2

/-- C1: with eviction policy None and capacity 1, `set(a,1)` succeeds and
`set(b,2)` raises CapacityExceeded — but, contrary to the claim, the store is
NOT left unchanged: the insertion happens before the capacity check throws and
is not rolled back, so the rejected entry b is retained and `size()` grows
from 1 to 2. This theorem evaluates the code at that failing input. -/
theorem spec_C1_insert_not_rolled_back :
    (setOp cfgNone1 "a" (1 : Nat) Option.none 0 [] (initial String Nat false)).1 = false ∧
    sizeOp noneScenario = 1 ∧
    (setOp cfgNone1 "b" (2 : Nat) Option.none 0 [] noneScenario).1 = true ∧
    mapHas "b" (setOp cfgNone1 "b" (2 : Nat) Option.none 0 [] noneScenario).2.store = true ∧
    mapHas "a" (setOp cfgNone1 "b" (2 : Nat) Option.none 0 [] noneScenario).2.store = true ∧
    sizeOp (setOp cfgNone1 "b" (2 : Nat) Option.none 0 [] noneScenario).2 = 2 := by
  decide

/-- C3 fails on the code: only `get` and `has` apply lazy expiry. In
`expiredScenario` the stored entry `k` has expiry timestamp 100, strictly in
the past at time 200, yet `ttl` returns 0 (not -2) and `expire`, `persist`
and `delete` all return true (not false). -/
theorem spec_C3_counterexample :
    mapGet "k" expiredScenario.store = some ⟨1, some 100⟩ ∧
    ((100 : Int) < 200) ∧
    ttlOp "k" 200 expiredScenario = 0 ∧
    (expireOp "k" 500 200 expiredScenario).1 = true ∧
    (persistOp "k" expiredScenario).1 = true ∧
    (deleteOp "k" expiredScenario).1 = true := by
  decide

/-- C3 (amended): for every key whose stored entry has an expiry timestamp
strictly in the past, `get` and `has` apply lazy-expiry semantics and treat
the entry as absent (deleting it), but `ttl`, `expire`, `persist` and
`delete` do not: `ttl` returns the clamped remaining time 0 (or -1 when the
expiry timestamp is exactly 0), and `expire`, `persist` and `delete` treat
the entry as present and return true (`delete` removes the stored entry). -/
theorem spec_C3_lazy_expiry_only_get_has (cfg : Config) (s : CacheState K V)
    (k : K) (now t e : Int) (entry : CacheEntry V)
    (hget : mapGet k s.store = some entry) (hexp : entry.expiry = some e)
    (hlt : e < now) :
    (getOp cfg k now s).1 = Option.none ∧
    ((getOp cfg k now s).2).store = mapDelete k s.store ∧
    (hasOp k now s).1 = false ∧
    ((hasOp k now s).2).store = mapDelete k s.store ∧
    ttlOp k now s = (if e = 0 then -1 else 0) ∧
    (expireOp k t now s).1 = true ∧
    (persistOp k s).1 = true ∧
    (deleteOp k s).1 = true := by
  have hexpired : isExpired now entry = true := by
    simp [isExpired, hexp, hlt]
  have hhas : mapHas k s.store = true := by simp [mapHas, hget]
  refine ⟨?_, ?_, ?_, ?_, ?_, ?_, ?_, ?_⟩
  · simp [getOp, hget, hexpired]
  · simp [getOp, hget, hexpired, recordStat_store]
  · simp [hasOp, hget, hexpired]
  · simp [hasOp, hget, hexpired, recordStat_store]
  · simp only [ttlOp, hget, hexp]
    by_cases he : e = 0
    · simp [he]
    · rw [if_neg he, if_neg he, max_eq_left (by omega)]
  · simp [expireOp, hget]
  · simp [persistOp, hget]
  · simp [deleteOp, hhas]

theorem spec_C3_lazy_expiry_only_get_has_witness :
    (getOp cfgUnbounded "k" 200 expiredScenario).1 = Option.none ∧
    ((getOp cfgUnbounded "k" 200 expiredScenario).2).store =
      mapDelete "k" expiredScenario.store ∧
    (hasOp "k" 200 expiredScenario).1 = false ∧
    ((hasOp "k" 200 expiredScenario).2).store =
      mapDelete "k" expiredScenario.store ∧
    ttlOp "k" 200 expiredScenario = (if (100 : Int) = 0 then -1 else 0) ∧
    (expireOp "k" 500 200 expiredScenario).1 = true ∧
    (persistOp "k" expiredScenario).1 = true ∧
    (deleteOp "k" expiredScenario).1 = true :=
  spec_C3_lazy_expiry_only_get_has cfgUnbounded expiredScenario "k" 200 500 100
    ⟨1, some 100⟩ (by decide) rfl (by decide)

/-- C6 fails on the code: `ttl` uses the falsy check `!entry.expiry`, so a
present entry whose expiry timestamp is exactly the falsy number 0 (reached
here via `expire(k, -1000)` at time 1000) yields -1, not the clamped
non-negative remaining time `max 0 (0 - 1000) = 0` that the claim requires
for a present entry with an expiry. -/
theorem spec_C6_counterexample :
    mapGet "k" falsyExpiryScenario.store = some ⟨1, some 0⟩ ∧
    ttlOp "k" 1000 falsyExpiryScenario = -1 ∧
    max (0 : Int) (0 - 1000) = 0 := by
  decide

/-- C6 (amended): `ttl(key)` returns -2 when the key is absent from the
store; -1 when the key is present and the entry's expiry is either absent or
exactly the (falsy) timestamp 0; otherwise the remaining milliseconds until
expiry, clamped to 0 and never negative. -/
theorem spec_C6_ttl_sentinels (s : CacheState K V) (k : K) (now : Int) :
    (mapGet k s.store = Option.none → ttlOp k now s = -2) ∧
    (∀ entry : CacheEntry V, mapGet k s.store = some entry →
      ((entry.expiry = Option.none ∨ entry.expiry = some 0) →
        ttlOp k now s = -1) ∧
      (∀ e : Int, entry.expiry = some e → e ≠ 0 →
        ttlOp k now s = max 0 (e - now) ∧ 0 ≤ ttlOp k now s)) := by
  refine ⟨?_, ?_⟩
  · intro h
    simp [ttlOp, h]
  · intro entry hget
    refine ⟨?_, ?_⟩
    · rintro (h | h) <;> simp [ttlOp, hget, h]
    · intro e he hne
      refine ⟨by simp [ttlOp, hget, he, hne], ?_⟩
      simp only [ttlOp, hget, he, if_neg hne]
      exact le_max_left 0 (e - now)

theorem spec_C6_ttl_sentinels_witness :
    ttlOp "absent" 0 (initial String Nat false) = -2 ∧
    ttlOp "k" 200 expiredScenario = max 0 ((100 : Int) - 200) ∧
    0 ≤ ttlOp "k" 200 expiredScenario := by
  refine ⟨?_, ?_, ?_⟩
  · exact (spec_C6_ttl_sentinels (initial String Nat false) "absent" 0).1 rfl
  · exact (((spec_C6_ttl_sentinels expiredScenario "k" 200).2 ⟨1, some 100⟩
      (by decide)).2 100 rfl (by decide)).1
  · exact (((spec_C6_ttl_sentinels expiredScenario "k" 200).2 ⟨1, some 100⟩
      (by decide)).2 100 rfl (by decide)).2

/-- C7: for a stored entry with expiry timestamp `e`, `get` at a time
strictly greater than `e` deletes the entry from the store, increments both
the expires and misses counters (when statistics are enabled), and returns
absent; at a time not strictly greater than `e`, `get` returns the stored
value and counts a hit. -/
theorem spec_C7_get_expiry (cfg : Config) (s : CacheState K V) (k : K)
    (now e : Int) (entry : CacheEntry V)
    (hget : mapGet k s.store = some entry) (hexp : entry.expiry = some e) :
    (e < now →
      (getOp cfg k now s).1 = Option.none ∧
      ((getOp cfg k now s).2).store = mapDelete k s.store ∧
      ((getOp cfg k now s).2).stats =
        (if s.statsEnabled then bumpStat StatKey.misses (bumpStat StatKey.expires s.stats)
          else s.stats)) ∧
    (now ≤ e →
      (getOp cfg k now s).1 = some entry.value ∧
      ((getOp cfg k now s).2).stats =
        (if s.statsEnabled then bumpStat StatKey.hits s.stats else s.stats)) := by
  constructor
  · intro hlt
    have hexpired : isExpired now entry = true := by
      simp [isExpired, hexp, hlt]
    refine ⟨?_, ?_, ?_⟩
    · simp [getOp, hget, hexpired]
    · simp [getOp, hget, hexpired, recordStat_store]
    · simp [getOp, hget, hexpired, recordStat_recordStat_stats]
  · intro hle
    have hnotexp : isExpired now entry = false := by
      simp only [isExpired, hexp, decide_eq_false_iff_not]
      omega
    refine ⟨?_, ?_⟩
    · simp [getOp, hget, hnotexp]
    · simp only [getOp, hget, hnotexp, Bool.false_eq_true, if_false, recordStat_stats]
      split <;> simp

theorem spec_C7_get_expiry_witness :
    ((100 : Int) < 200) ∧
    (getOp cfgUnbounded "k" 200 expiredStatsScenario).1 = Option.none ∧
    ((getOp cfgUnbounded "k" 200 expiredStatsScenario).2).store =
      mapDelete "k" expiredStatsScenario.store ∧
    ((getOp cfgUnbounded "k" 200 expiredStatsScenario).2).stats =
      (if expiredStatsScenario.statsEnabled then
        bumpStat StatKey.misses (bumpStat StatKey.expires expiredStatsScenario.stats)
      else expiredStatsScenario.stats) ∧
    (getOp cfgUnbounded "k" 50 expiredStatsScenario).1 = some 1 := by
  have h1 := spec_C7_get_expiry cfgUnbounded expiredStatsScenario "k" 200 100
    ⟨1, some 100⟩ (by decide) rfl
  have h2 := spec_C7_get_expiry cfgUnbounded expiredStatsScenario "k" 50 100
    ⟨1, some 100⟩ (by decide) rfl
  exact ⟨by decide, (h1.1 (by decide)).1, (h1.1 (by decide)).2.1,
    (h1.1 (by decide)).2.2, (h2.2 (by decide)).1⟩

theorem evictLoop_stats_of_disabled (cfg : Config) (fuel : Nat) :
    ∀ (rands : List Nat) (s : CacheState K V), s.statsEnabled = false →
      ((evictLoop cfg fuel rands s).2).stats = s.stats ∧
      ((evictLoop cfg fuel rands s).2).statsEnabled = false := by
  induction fuel with
  | zero =>
    intro rands s h
    exact ⟨rfl, h⟩
  | succ n ih =>
    intro rands s h
    rw [evictLoop]
    split
    · split
      · split
        next p heq =>
          rw [recordStat_of_disabled StatKey.evictions
            { s with store := mapDelete p.1 s.store } h]
          exact ih _ _ h
        next heq => exact ⟨rfl, h⟩
      · split
        next p heq =>
          rw [recordStat_of_disabled StatKey.evictions
            { s with store := mapDelete p.1 s.store } h]
          exact ih _ _ h
        next heq => exact ⟨rfl, h⟩
      · split
        next p heq =>
          rw [recordStat_of_disabled StatKey.evictions
            { s with store := mapDelete p.1 s.store } h]
          exact ih _ _ h
        next heq => exact ⟨rfl, h⟩
      · exact ⟨rfl, h⟩
    · exact ⟨rfl, h⟩

theorem evictIfNeeded_stats_of_disabled (cfg : Config) (rands : List Nat)
    (s : CacheState K V) (h : s.statsEnabled = false) :
    ((evictIfNeeded cfg rands s).2).stats = s.stats :=
  (evictLoop_stats_of_disabled cfg _ rands s h).1

/-- C10: while statistics are disabled, no public operation among `set`,
`get`, `has`, `delete`, `clear`, `expire`, `persist` changes any of the raw
counters; in particular `clear()` leaves previously accumulated counter
values intact when statistics are disabled. -/
theorem spec_C10_stats_frame (cfg : Config) (s : CacheState K V)
    (hdis : s.statsEnabled = false) :
    (∀ (k : K) (v : V) (ttlArg : Option Int) (now : Int) (rands : List Nat),
      ((setOp cfg k v ttlArg now rands s).2).stats = s.stats) ∧
    (∀ (k : K) (now : Int), ((getOp cfg k now s).2).stats = s.stats) ∧
    (∀ (k : K) (now : Int), ((hasOp k now s).2).stats = s.stats) ∧
    (∀ k : K, ((deleteOp k s).2).stats = s.stats) ∧
    (clearOp s).stats = s.stats ∧
    (∀ (k : K) (t now : Int), ((expireOp k t now s).2).stats = s.stats) ∧
    (∀ k : K, ((persistOp k s).2).stats = s.stats) := by
  refine ⟨?_, ?_, ?_, ?_, ?_, ?_, ?_⟩
  · intro k v ttlArg now rands
    rw [setOp_def, recordStat_of_disabled StatKey.sets
      { s with store := (jsMapSet k ⟨v, resolveExpiry cfg ttlArg now⟩
          (if mapHas k s.store then mapDelete k s.store else s.store)) } hdis]
    exact evictIfNeeded_stats_of_disabled cfg rands _ hdis
  · intro k now
    unfold getOp
    split
    · simp [recordStat_stats, hdis]
    · split
      · simp [recordStat_stats, recordStat_statsEnabled, hdis]
      · split <;> simp [recordStat_stats, hdis]
  · intro k now
    unfold hasOp
    split
    · rfl
    · split
      · simp [recordStat_stats, hdis]
      · rfl
  · intro k
    unfold deleteOp
    split
    · simp [recordStat_stats, hdis]
    · rfl
  · simp [clearOp, hdis]
  · intro k t now
    unfold expireOp
    split <;> rfl
  · intro k
    unfold persistOp
    split <;> rfl

theorem spec_C10_stats_frame_witness :
    disabledStatsState.statsEnabled = false ∧
    disabledStatsState.stats = ⟨5, 4, 3, 2, 1, 0⟩ ∧
    (clearOp disabledStatsState).stats = ⟨5, 4, 3, 2, 1, 0⟩ ∧
    ((deleteOp "a" disabledStatsState).2).stats = ⟨5, 4, 3, 2, 1, 0⟩ ∧
    ((getOp cfgUnbounded "a" 0 disabledStatsState).2).stats = ⟨5, 4, 3, 2, 1, 0⟩ := by
  refine ⟨rfl, rfl, ?_, ?_, ?_⟩
  · exact (spec_C10_stats_frame cfgUnbounded disabledStatsState rfl).2.2.2.2.1
  · exact (spec_C10_stats_frame cfgUnbounded disabledStatsState rfl).2.2.2.1 "a"
  · exact (spec_C10_stats_frame cfgUnbounded disabledStatsState rfl).2.1 "a" 0

/-- C9: for every state of the raw counters, `getStats()` returns
`totalRequests = hits + misses`, `hitRate = hits/totalRequests*100` and
`missRate = misses/totalRequests*100` each rounded to 2 decimal places
(modelled as exact half-up decimal rounding of the rational value), and both
rates equal 0 when `totalRequests` is 0; in particular one hit and one miss
give hitRate = 50, missRate = 50, totalRequests = 2. -/
theorem spec_C9_stats_rates (s : CacheState K V) :
    (getStats s).totalRequests = s.stats.hits + s.stats.misses ∧
    (getStats s).hitRate =
      (if s.stats.hits + s.stats.misses = 0 then 0
        else round2 ((s.stats.hits : ℚ) /
          ((s.stats.hits + s.stats.misses : Nat) : ℚ) * 100)) ∧
    (getStats s).missRate =
      (if s.stats.hits + s.stats.misses = 0 then 0
        else round2 ((s.stats.misses : ℚ) /
          ((s.stats.hits + s.stats.misses : Nat) : ℚ) * 100)) ∧
    (s.stats.hits + s.stats.misses = 0 →
      (getStats s).hitRate = 0 ∧ (getStats s).missRate = 0) ∧
    (s.stats.hits = 1 → s.stats.misses = 1 →
      (getStats s).hitRate = 50 ∧ (getStats s).missRate = 50 ∧
      (getStats s).totalRequests = 2) := by
  refine ⟨rfl, rfl, rfl, ?_, ?_⟩
  · intro h
    simp [getStats, h]
  · intro h1 h2
    refine ⟨?_, ?_, ?_⟩ <;> simp [getStats, h1, h2] <;> norm_num [round2]

theorem spec_C9_stats_rates_witness :
    statsScenario.stats.hits = 1 ∧ statsScenario.stats.misses = 1 ∧
    (getStats statsScenario).hitRate = 50 ∧
    (getStats statsScenario).missRate = 50 ∧
    (getStats statsScenario).totalRequests = 2 := by
  have h := (spec_C9_stats_rates statsScenario).2.2.2.2 (by decide) (by decide)
  exact ⟨by decide, by decide, h.1, h.2.1, h.2.2⟩

end SimpleCache
